import Mathlib

/-!
Verification of the spatial (GIS) value subsystem of go-mysql-server:
sql/point.go and sql/expression/function/polygon.go.

Modelling conventions:
* Go float64 coordinates are modelled by the type F below: a finite value is
  carried exactly as a rational number, and NaN is modelled explicitly.
  IEEE comparisons involving NaN are false; arithmetic involving NaN yields
  NaN.  Rounding of finite arithmetic and the infinities are not modelled;
  none of the properties under study depends on them.
* Go runtime panics (out-of-range slice index, failed type assertion) are
  modelled as explicit panic outcomes (Option.none or Outcome.panic).
* Go interface values are modelled by the Value inductive below; Value.vother
  stands for an arbitrary non-nil Go value of a shape not otherwise listed.
-/

/-- Model of a Go float64 coordinate: NaN, or a finite value carried exactly
as a rational number. -/
inductive F where
  | nan : F
  | fin : ℚ → F

deriving instance DecidableEq for F

/-- Go float64 subtraction: NaN propagates, finite arithmetic is exact. -/
def F.sub : F → F → F
  | .fin a, .fin b => .fin (a - b)
  | _, _ => .nan

/-- Go float64 multiplication: NaN propagates, finite arithmetic is exact. -/
def F.mul : F → F → F
  | .fin a, .fin b => .fin (a * b)
  | _, _ => .nan

/-- Go float64 strict less-than: any comparison involving NaN is false. -/
def F.lt : F → F → Bool
  | .fin a, .fin b => decide (a < b)
  | _, _ => false

/-- Go float64 strict greater-than: any comparison involving NaN is false. -/
def F.gt : F → F → Bool
  | .fin a, .fin b => decide (b < a)
  | _, _ => false

/-- Go float64 equality (==): any comparison involving NaN is false. -/
def F.beq : F → F → Bool
  | .fin a, .fin b => decide (a = b)
  | _, _ => false

/-- Go math.Min: returns NaN if either argument is NaN. -/
def F.min : F → F → F
  | .fin a, .fin b => .fin (Min.min a b)
  | _, _ => .nan

/-- Go math.Max: returns NaN if either argument is NaN. -/
def F.max : F → F → F
  | .fin a, .fin b => .fin (Max.max a b)
  | _, _ => .nan

/-- Model of sql.Point (point.go): an ordered pair of float64 coordinates. -/
structure Point where
  x : F
  y : F

deriving instance DecidableEq for Point

/-- Go struct equality on sql.Point values (the == / != used by
isLinearRing): both float64 fields compared with IEEE ==. -/
def Point.goEq (p q : Point) : Bool :=
  F.beq p.x q.x && F.beq p.y q.y

/-- Model of sql.Linestring: an ordered sequence of Points.  The struct
declaration itself is outside the analysed sources; its shape (a Points
slice) is forced by every use in polygon.go and by section 3 of the spec. -/
structure Linestring where
  points : List Point

deriving instance DecidableEq for Linestring

/-- Model of sql.Polygon: an ordered sequence of Linestrings.  The struct
declaration itself is outside the analysed sources; its shape (a Lines
slice) is forced by its construction in polygon.go and by section 3 of the
spec. -/
structure Polygon where
  lines : List Linestring

deriving instance DecidableEq for Polygon

/-- pointOrientation (polygon.go): val = (p2.Y-p1.Y)*(p3.X-p2.X) -
(p3.Y-p2.Y)*(p2.X-p1.X); 0 means collinear, 1 clockwise,
2 counter-clockwise.  With a NaN coordinate, val is NaN, both tests are
false and the function returns 2, exactly as the Go code does. -/
def pointOrientation (p1 p2 p3 : Point) : Int :=
  let val := F.sub (F.mul (F.sub p2.y p1.y) (F.sub p3.x p2.x))
                   (F.mul (F.sub p3.y p2.y) (F.sub p2.x p1.x))
  if F.beq val (F.fin 0) then 0
  else if F.gt val (F.fin 0) then 1
  else 2

/-- onSegment (polygon.go): strict bounding-box membership on both axes. -/
def onSegment (a b c : Point) : Bool :=
  F.gt c.x (F.min a.x b.x) && F.lt c.x (F.max a.x b.x) &&
  F.gt c.y (F.min a.y b.y) && F.lt c.y (F.max a.y b.y)

/-- lineSegmentsIntersect (polygon.go): the orientation-based crossing test
plus the four collinear/bounding-box branches. -/
def lineSegmentsIntersect (a b c d : Point) : Bool :=
  let abc := pointOrientation a b c
  let abd := pointOrientation a b d
  let cda := pointOrientation c d a
  let cdb := pointOrientation c d b
  if abc ≠ abd ∧ cda ≠ cdb then true
  else if abc = 0 ∧ onSegment a b c then true
  else if abd = 0 ∧ onSegment a b d then true
  else if cda = 0 ∧ onSegment c d a then true
  else if cdb = 0 ∧ onSegment c d b then true
  else false

/-- isLinearRing (polygon.go).  Result some b models a normal boolean
return; none models the Go runtime panic that occurs when the function
indexes Points[0] and Points[numPoints-1] of an empty slice (the point-count
guard only rejects counts 1 to 3, so a count of 0 reaches the indexing).
The self-intersection scan that follows the unconditional return true in the
source is unreachable and therefore not part of the behaviour. -/
def isLinearRing (line : Linestring) : Option Bool :=
  let numPoints := line.points.length
  if numPoints ≠ 0 ∧ numPoints < 4 then some false
  else
    match line.points.head?, line.points.getLast? with
    | some p0, some pn => if Point.goEq p0 pn = false then some false else some true
    | _, _ => none

/-- Model of a Go interface{} value as it flows through point.go and
polygon.go: nil, a Point, a Linestring, a Polygon, a string, or any other
non-nil value (vother). -/
inductive Value where
  | vnull : Value
  | vpoint : Point → Value
  | vlinestring : Linestring → Value
  | vpolygon : Polygon → Value
  | vstring : String → Value
  | vother : Value

deriving instance DecidableEq for Value

/-- Modelled from the spec: the shared null-comparison convention of the sql
package (compareNulls, whose definition is not among the analysed sources).
Spec section 4.1: nulls are handled first and a null is ordered below any
non-null value; two nulls compare equal.  Returns none when neither operand
is null.  No claim under study depends on this branch: both claims about
Compare pass Point operands, which skip it. -/
def compareNulls : Value → Value → Option Int
  | .vnull, .vnull => some 0
  | .vnull, _ => some (-1)
  | _, .vnull => some 1
  | _, _ => none

/-- The coordinate comparison chain of PointType.Compare (point.go): X first
with strict > and <, then Y, else equal. -/
def pointCompareVals (a b : Point) : Int :=
  if F.gt a.x b.x then 1
  else if F.lt a.x b.x then -1
  else if F.gt a.y b.y then 1
  else if F.lt a.y b.y then -1
  else 0

/-- PointType.Compare (point.go): null handling, then the two Point type
assertions (error on a non-Point), then the lexicographic coordinate
comparison. -/
def pointTypeCompare (a b : Value) : Except String Int :=
  match compareNulls a b with
  | some res => .ok res
  | none =>
    match a, b with
    | .vpoint pa, .vpoint pb => .ok (pointCompareVals pa pb)
    | _, _ => .error "received a non-Point type"

/-- PointType.Convert (point.go): identity on a Point, error otherwise. -/
def pointTypeConvert : Value → Except String Value
  | .vpoint p => .ok (.vpoint p)
  | _ => .error "can\x27t convert to Point"

/-- Outcome of running a Go function that may return normally, return an
error value, or panic at runtime. -/
inductive Outcome (α : Type) where
  | ok : α → Outcome α
  | error : String → Outcome α
  | panic : Outcome α

deriving instance DecidableEq for Outcome

/-- Go single-value type assertion v.(string): the string payload on a
string, a runtime panic on anything else. -/
def goStringAssert : Value → Outcome String
  | .vstring s => .ok s
  | _ => .panic

/-- Model of a vitess sqltypes.Value as produced by PointType.SQL: the
NULL marker, the zero value sqltypes.Value\x7b\x7d, or a MakeTrusted Geometry
value carrying a payload. -/
inductive SqlValue where
  | null : SqlValue
  | emptyValue : SqlValue
  | geometry : String → SqlValue

deriving instance DecidableEq for SqlValue

/-- PointType.SQL (point.go).  Returns the wire value together with the
returned error (always nil in this function), or a panic outcome.  A nil
input yields the NULL marker; a failed Convert is swallowed into the empty
value with a nil error; a successful Convert (necessarily a Point) reaches
the []byte(pv.(string)) conversion, whose type assertion is modelled by
goStringAssert. -/
def pointTypeSQL (v : Value) : Outcome (SqlValue × Option String) :=
  match v with
  | .vnull => .ok (.null, none)
  | _ =>
    match pointTypeConvert v with
    | .error _ => .ok (.emptyValue, none)
    | .ok pv =>
      match goStringAssert pv with
      | .ok s => .ok (.geometry s, none)
      | _ => .panic

/-- Model of sql.Row ([]interface\x7b\x7d in Go). -/
def Row : Type := List Value

/-- Model of a child sql.Expression exactly as the Polygon constructor
consumes it: its Eval method (a function of the row, returning a value or
an error) and its IsNullable flag. -/
structure GoExpr where
  eval : Row → Except String Value
  isNullable : Bool

/-- Argument-count error raised by NewPolygon via
sql.ErrInvalidArgumentNumber.New("Polygon", "1 or more", len(args)). -/
inductive ConstructError where
  | invalidArgumentNumber : String → String → Nat → ConstructError

deriving instance DecidableEq for ConstructError

/-- The expression node built by NewPolygon: it holds its child
expressions. -/
structure PolygonExpr where
  args : List GoExpr

/-- NewPolygon (polygon.go): fewer than one argument is an
ErrInvalidArgumentNumber error, otherwise the node is built around the
argument list. -/
def NewPolygon (args : List GoExpr) : Except ConstructError PolygonExpr :=
  if args.length < 1 then
    .error (.invalidArgumentNumber "Polygon" "1 or more" args.length)
  else
    .ok ⟨args⟩

/-- Polygon.WithChildren (polygon.go): returns NewPolygon(children...);
the receiver is not consulted or modified. -/
def polygonWithChildren (_l : PolygonExpr) (children : List GoExpr) :
    Except ConstructError PolygonExpr :=
  NewPolygon children

/-- Polygon.IsNullable (polygon.go): true iff some child is nullable. -/
def polygonIsNullable (args : List GoExpr) : Bool :=
  args.any (fun a => a.isNullable)

/-- The evaluation loop of Polygon.Eval (polygon.go): each argument is
evaluated in order; an evaluation error is returned at once; a non-Linestring
result (the default branch of the type switch, which also catches nil) is the
non-linestring error; a Linestring failing isLinearRing is the non-linearring
error; an empty Linestring makes isLinearRing panic; otherwise the line is
recorded and the loop continues. -/
def polygonEvalLines : List GoExpr → Row → Outcome (List Linestring)
  | [], _ => .ok []
  | e :: rest, row =>
    match e.eval row with
    | .error msg => .error msg
    | .ok v =>
      match v with
      | .vlinestring l =>
        match isLinearRing l with
        | none => .panic
        | some false => .error "polygon constructor encountered a non-linearring"
        | some true =>
          match polygonEvalLines rest row with
          | .ok ls => .ok (l :: ls)
          | .error msg => .error msg
          | .panic => .panic
      | _ => .error "polygon constructor encountered a non-linestring"

/-- Polygon.Eval (polygon.go): on success the collected lines form the
returned sql.Polygon value. -/
def polygonEval (args : List GoExpr) (row : Row) : Outcome Value :=
  match polygonEvalLines args row with
  | .ok ls => .ok (.vpolygon ⟨ls⟩)
  | .error msg => .error msg
  | .panic => .panic

/-- A child expression together with the Linestring it evaluates to on a
row, passing the linear-ring check: the success condition of one loop
iteration of Polygon.Eval. -/
def ringOk (row : Row) (e : GoExpr) (l : Linestring) : Prop :=
  e.eval row = .ok (.vlinestring l) ∧ isLinearRing l = some true

/-- A point with finite (rational) coordinates, used to state properties of
the geometry functions on NaN-free inputs. -/
structure QPt where
  x : ℚ
  y : ℚ

deriving instance DecidableEq for QPt

/-- Embeds a finite-coordinate point into the float64 model. -/
def finPt (p : QPt) : Point := ⟨F.fin p.x, F.fin p.y⟩

/-- The orientation value of pointOrientation, computed exactly over the
rationals. -/
def qOrientVal (p1 p2 p3 : QPt) : ℚ :=
  (p2.y - p1.y) * (p3.x - p2.x) - (p3.y - p2.y) * (p2.x - p1.x)

/-- pointOrientation restricted to finite coordinates, over the rationals. -/
def qOrient (p1 p2 p3 : QPt) : Int :=
  if qOrientVal p1 p2 p3 = 0 then 0
  else if 0 < qOrientVal p1 p2 p3 then 1
  else 2

/-- onSegment restricted to finite coordinates, over the rationals. -/
def qOnSegment (a b c : QPt) : Bool :=
  decide (Min.min a.x b.x < c.x) && decide (c.x < Max.max a.x b.x) &&
  decide (Min.min a.y b.y < c.y) && decide (c.y < Max.max a.y b.y)

/-- lineSegmentsIntersect restricted to finite coordinates, over the
rationals. -/
def qIntersect (a b c d : QPt) : Bool :=
  let abc := qOrient a b c
  let abd := qOrient a b d
  let cda := qOrient c d a
  let cdb := qOrient c d b
  if abc ≠ abd ∧ cda ≠ cdb then true
  else if abc = 0 ∧ qOnSegment a b c then true
  else if abd = 0 ∧ qOnSegment a b d then true
  else if cda = 0 ∧ qOnSegment c d a then true
  else if cdb = 0 ∧ qOnSegment c d b then true
  else false

/-- Membership of r in the closed segment from p to q, as a convex
combination. -/
def onSeg (p q r : QPt) : Prop :=
  ∃ t : ℚ, 0 ≤ t ∧ t ≤ 1 ∧ r.x = p.x + t * (q.x - p.x) ∧ r.y = p.y + t * (q.y - p.y)

/-- Bounding boxes of the two segments are disjoint: they are separated by a
vertical or a horizontal line. -/
def qBoxesDisjoint (a b c d : QPt) : Bool :=
  decide (Max.max a.x b.x < Min.min c.x d.x) ||
  decide (Max.max c.x d.x < Min.min a.x b.x) ||
  decide (Max.max a.y b.y < Min.min c.y d.y) ||
  decide (Max.max c.y d.y < Min.min a.y b.y)

/-- Functorial action on evaluation outcomes. -/
def Outcome.map {α β : Type} (f : α → β) : Outcome α → Outcome β
  | .ok v => .ok (f v)
  | .error msg => .error msg
  | .panic => .panic

/-- The lexicographic comparison exactly as the spec words it (reference
definition for the refinement claim about Compare): compare X first with
strict greater/less, then Y, with equal X and Y giving 0. -/
def specLexCompare (p q : QPt) : Int :=
  if p.x > q.x then 1
  else if p.x < q.x then -1
  else if p.y > q.y then 1
  else if p.y < q.y then -1
  else 0

/-- Componentwise difference p - q, the vector from q to p. -/
def vsub (p q : QPt) : QPt := ⟨p.x - q.x, p.y - q.y⟩

/-- The standard two-dimensional cross product of u and v:
u.x * v.y - u.y * v.x. -/
def crossProd (u v : QPt) : ℚ := u.x * v.y - u.y * v.x

/-- A child expression that evaluates to a fixed value on every row. -/
def constExpr (v : Value) : GoExpr := ⟨fun _ => .ok v, false⟩

/-- A concrete closed 4-point square ring. -/
def squareRing : Linestring :=
  ⟨[finPt ⟨0, 0⟩, finPt ⟨0, 1⟩, finPt ⟨1, 1⟩, finPt ⟨0, 0⟩]⟩

/-- A concrete closed 5-point bowtie ring: it is closed but its first and
third segments cross at (1, 1). -/
def bowtieRing : Linestring :=
  ⟨[finPt ⟨0, 0⟩, finPt ⟨2, 2⟩, finPt ⟨2, 0⟩, finPt ⟨0, 2⟩, finPt ⟨0, 0⟩]⟩

theorem QPt.ext_xy {p q : QPt} (hx : p.x = q.x) (hy : p.y = q.y) : p = q := by
  cases p; cases q; simp_all

@[simp] theorem pointOrientation_finPt (p1 p2 p3 : QPt) :
    pointOrientation (finPt p1) (finPt p2) (finPt p3) = qOrient p1 p2 p3 := by
  simp only [pointOrientation, finPt, F.sub, F.mul, F.beq, F.gt, qOrient, qOrientVal,
    decide_eq_true_eq]

@[simp] theorem onSegment_finPt (a b c : QPt) :
    onSegment (finPt a) (finPt b) (finPt c) = qOnSegment a b c := by
  simp only [onSegment, finPt, F.gt, F.lt, F.min, F.max, qOnSegment]

@[simp] theorem lineSegmentsIntersect_finPt (a b c d : QPt) :
    lineSegmentsIntersect (finPt a) (finPt b) (finPt c) (finPt d) =
      qIntersect a b c d := by
  simp only [lineSegmentsIntersect, qIntersect, pointOrientation_finPt, onSegment_finPt]

theorem onSeg_left (p q : QPt) : onSeg p q p :=
  ⟨0, le_refl 0, zero_le_one, by ring, by ring⟩

theorem onSeg_right (p q : QPt) : onSeg p q q :=
  ⟨1, zero_le_one, le_refl 1, by ring, by ring⟩

/-- The orientation value is an affine function of its third argument. -/
theorem qOrientVal_affine (a b c d : QPt) (u : ℚ) :
    qOrientVal a b ⟨c.x + u * (d.x - c.x), c.y + u * (d.y - c.y)⟩
      = qOrientVal a b c + u * (qOrientVal a b d - qOrientVal a b c) := by
  simp only [qOrientVal]
  ring

theorem qOrientVal_self_left (a b : QPt) : qOrientVal a b a = 0 := by
  simp only [qOrientVal]; ring

theorem qOrientVal_self_right (a b : QPt) : qOrientVal a b b = 0 := by
  simp only [qOrientVal]; ring

theorem qOrient_of_val_zero {p1 p2 p3 : QPt} (h : qOrientVal p1 p2 p3 = 0) :
    qOrient p1 p2 p3 = 0 := by
  simp [qOrient, h]

theorem qOrient_of_val_pos {p1 p2 p3 : QPt} (h : 0 < qOrientVal p1 p2 p3) :
    qOrient p1 p2 p3 = 1 := by
  simp only [qOrient]
  rw [if_neg (by linarith), if_pos h]

theorem qOrient_of_val_neg {p1 p2 p3 : QPt} (h : qOrientVal p1 p2 p3 < 0) :
    qOrient p1 p2 p3 = 2 := by
  simp only [qOrient]
  rw [if_neg (by linarith), if_neg (by linarith)]

theorem qOrient_eq_zero_iff {p1 p2 p3 : QPt} :
    qOrient p1 p2 p3 = 0 ↔ qOrientVal p1 p2 p3 = 0 := by
  constructor
  · intro h
    rcases lt_trichotomy (qOrientVal p1 p2 p3) 0 with hv | hv | hv
    · rw [qOrient_of_val_neg hv] at h; exact absurd h (by decide)
    · exact hv
    · rw [qOrient_of_val_pos hv] at h; exact absurd h (by decide)
  · exact qOrient_of_val_zero

/-- A difference in orientation classification forces the two orientation
values to have opposite (non-strict) signs and not both vanish. -/
theorem qOrient_ne_sign {p1 p2 c d : QPt}
    (h : qOrient p1 p2 c ≠ qOrient p1 p2 d) :
    qOrientVal p1 p2 c * qOrientVal p1 p2 d ≤ 0 ∧
      ¬(qOrientVal p1 p2 c = 0 ∧ qOrientVal p1 p2 d = 0) := by
  rcases lt_trichotomy (qOrientVal p1 p2 c) 0 with hc | hc | hc <;>
    rcases lt_trichotomy (qOrientVal p1 p2 d) 0 with hd | hd | hd
  · exact absurd (by rw [qOrient_of_val_neg hc, qOrient_of_val_neg hd]) h
  · exact ⟨by rw [hd]; ring_nf; exact le_refl 0, fun hb => absurd hb.1 (by linarith)⟩
  · exact ⟨by nlinarith, fun hb => absurd hb.1 (by linarith)⟩
  · exact ⟨by rw [hc]; ring_nf; exact le_refl 0, fun hb => absurd hb.2 (by linarith)⟩
  · exact absurd (by rw [qOrient_of_val_zero hc, qOrient_of_val_zero hd]) h
  · exact ⟨by rw [hc]; ring_nf; exact le_refl 0, fun hb => absurd hb.2 (by linarith)⟩
  · exact ⟨by nlinarith, fun hb => absurd hb.1 (by linarith)⟩
  · exact ⟨by rw [hd]; ring_nf; exact le_refl 0, fun hb => absurd hb.1 (by linarith)⟩
  · exact absurd (by rw [qOrient_of_val_pos hc, qOrient_of_val_pos hd]) h

/-- A point that is collinear with a segment and strictly inside its
bounding box on both axes lies on the segment. -/
theorem collinear_onSegment {a b c : QPt}
    (h0 : qOrientVal a b c = 0) (hs : qOnSegment a b c = true) : onSeg a b c := by
  simp only [qOnSegment, Bool.and_eq_true, decide_eq_true_eq] at hs
  obtain ⟨⟨⟨h1, h2⟩, h3⟩, h4⟩ := hs
  have hT : (c.y - a.y) * (b.x - a.x) - (c.x - a.x) * (b.y - a.y) = 0 := by
    simp only [qOrientVal] at h0
    linear_combination (-1 : ℚ) * h0
  rcases le_total a.x b.x with hab | hab
  · have h1x : a.x < c.x := by rwa [min_eq_left hab] at h1
    have h2x : c.x < b.x := by rwa [max_eq_right hab] at h2
    have hne : b.x - a.x ≠ 0 := by intro h; linarith
    refine ⟨(c.x - a.x) / (b.x - a.x), ?_, ?_, ?_, ?_⟩
    · apply div_nonneg <;> linarith
    · rw [div_le_one (by linarith)]; linarith
    · rw [div_mul_cancel₀ _ hne]; ring
    · have hy : c.y - a.y = (c.x - a.x) / (b.x - a.x) * (b.y - a.y) := by
        rw [div_mul_eq_mul_div, eq_div_iff hne]
        linear_combination hT
      linarith
  · have h1x : b.x < c.x := by rwa [min_eq_right hab] at h1
    have h2x : c.x < a.x := by rwa [max_eq_left hab] at h2
    have hne : b.x - a.x ≠ 0 := by intro h; linarith
    refine ⟨(c.x - a.x) / (b.x - a.x), ?_, ?_, ?_, ?_⟩
    · rw [div_nonneg_iff]; right; constructor <;> linarith
    · have key : (1 : ℚ) - (c.x - a.x) / (b.x - a.x) = (b.x - c.x) / (b.x - a.x) := by
        field_simp
      have hnn : (0 : ℚ) ≤ (b.x - c.x) / (b.x - a.x) := by
        rw [div_nonneg_iff]; right; constructor <;> linarith
      linarith [key ▸ hnn]
    · rw [div_mul_cancel₀ _ hne]; ring
    · have hy : c.y - a.y = (c.x - a.x) / (b.x - a.x) * (b.y - a.y) := by
        rw [div_mul_eq_mul_div, eq_div_iff hne]
        linear_combination hT
      linarith

/-- Any point of a segment lies inside the bounding box of the segment. -/
theorem onSeg_bounds {p q r : QPt} (h : onSeg p q r) :
    Min.min p.x q.x ≤ r.x ∧ r.x ≤ Max.max p.x q.x ∧
      Min.min p.y q.y ≤ r.y ∧ r.y ≤ Max.max p.y q.y := by
  obtain ⟨t, ht0, ht1, hx, hy⟩ := h
  refine ⟨?_, ?_, ?_, ?_⟩
  · rcases le_total p.x q.x with hh | hh
    · rw [min_eq_left hh]; nlinarith
    · rw [min_eq_right hh]; nlinarith
  · rcases le_total p.x q.x with hh | hh
    · rw [max_eq_right hh]; nlinarith
    · rw [max_eq_left hh]; nlinarith
  · rcases le_total p.y q.y with hh | hh
    · rw [min_eq_left hh]; nlinarith
    · rw [min_eq_right hh]; nlinarith
  · rcases le_total p.y q.y with hh | hh
    · rw [max_eq_right hh]; nlinarith
    · rw [max_eq_left hh]; nlinarith

/-- If the two endpoints of each segment are classified differently with
respect to the other segment, the two segments share a point. -/
theorem segment_crossing_point {a b c d : QPt}
    (h1 : qOrient a b c ≠ qOrient a b d) (h2 : qOrient c d a ≠ qOrient c d b) :
    ∃ r : QPt, onSeg a b r ∧ onSeg c d r := by
  obtain ⟨hg, hgne⟩ := qOrient_ne_sign h1
  obtain ⟨hf, hfne⟩ := qOrient_ne_sign h2
  set gc := qOrientVal a b c with hgc
  set gd := qOrientVal a b d with hgd
  set fa := qOrientVal c d a with hfa
  set fb := qOrientVal c d b with hfb
  have hgD : gc - gd ≠ 0 := by
    intro h
    have hcd : gc = gd := by linarith
    have hgc0 : gc = 0 := by nlinarith
    exact hgne ⟨hgc0, by rw [← hcd]; exact hgc0⟩
  have hfD : fa - fb ≠ 0 := by
    intro h
    have hab : fa = fb := by linarith
    have hfa0 : fa = 0 := by nlinarith
    exact hfne ⟨hfa0, by rw [← hab]; exact hfa0⟩
  -- the point of line ab on segment cd
  set u := gc / (gc - gd) with hu
  have hueq : u = gc * (gc - gd) / (gc - gd) ^ 2 := by
    rw [hu]
    rw [pow_two]
    rw [mul_div_mul_right _ _ hgD]
  have hu0 : 0 ≤ u := by
    rw [hueq]
    apply div_nonneg (by nlinarith) (by positivity)
  have hu1 : u ≤ 1 := by
    rw [hueq, div_le_one (by positivity)]
    nlinarith
  set r : QPt := ⟨c.x + u * (d.x - c.x), c.y + u * (d.y - c.y)⟩ with hr
  have hrcd : onSeg c d r := ⟨u, hu0, hu1, rfl, rfl⟩
  have hgr : qOrientVal a b r = 0 := by
    rw [hr, qOrientVal_affine, ← hgc, ← hgd, hu]
    field_simp
    ring
  -- the point of line cd on segment ab
  set t := fa / (fa - fb) with ht
  have hteq : t = fa * (fa - fb) / (fa - fb) ^ 2 := by
    rw [ht, pow_two, mul_div_mul_right _ _ hfD]
  have ht0 : 0 ≤ t := by
    rw [hteq]
    apply div_nonneg (by nlinarith) (by positivity)
  have ht1 : t ≤ 1 := by
    rw [hteq, div_le_one (by positivity)]
    nlinarith
  set q : QPt := ⟨a.x + t * (b.x - a.x), a.y + t * (b.y - a.y)⟩ with hq
  have hqab : onSeg a b q := ⟨t, ht0, ht1, rfl, rfl⟩
  have hfq : qOrientVal c d q = 0 := by
    rw [hq, qOrientVal_affine, ← hfa, ← hfb, ht]
    field_simp
    ring
  -- both candidate points lie on both supporting lines
  have hgq : qOrientVal a b q = 0 := by
    rw [hq, qOrientVal_affine, qOrientVal_self_left, qOrientVal_self_right]
    ring
  have hfr : qOrientVal c d r = 0 := by
    rw [hr, qOrientVal_affine, qOrientVal_self_left, qOrientVal_self_right]
    ring
  -- the supporting lines are not parallel, so the two points coincide
  have hD : (b.y - a.y) * (d.x - c.x) - (b.x - a.x) * (d.y - c.y) ≠ 0 := by
    intro h
    apply hgD
    have hdiff : gd - gc = (b.y - a.y) * (d.x - c.x) - (b.x - a.x) * (d.y - c.y) := by
      rw [hgc, hgd]
      simp only [qOrientVal]
      ring
    linarith [hdiff.trans h]
  have e1 : (b.y - a.y) * (r.x - q.x) - (b.x - a.x) * (r.y - q.y) = 0 := by
    have hdiff : qOrientVal a b r - qOrientVal a b q
        = (b.y - a.y) * (r.x - q.x) - (b.x - a.x) * (r.y - q.y) := by
      simp only [qOrientVal]
      ring
    rw [hgr, hgq] at hdiff
    linarith
  have e2 : (d.y - c.y) * (r.x - q.x) - (d.x - c.x) * (r.y - q.y) = 0 := by
    have hdiff : qOrientVal c d r - qOrientVal c d q
        = (d.y - c.y) * (r.x - q.x) - (d.x - c.x) * (r.y - q.y) := by
      simp only [qOrientVal]
      ring
    rw [hfr, hfq] at hdiff
    linarith
  have hx : r.x = q.x := by
    have h3 : ((b.y - a.y) * (d.x - c.x) - (b.x - a.x) * (d.y - c.y)) * (r.x - q.x) = 0 := by
      linear_combination (d.x - c.x) * e1 - (b.x - a.x) * e2
    rcases mul_eq_zero.mp h3 with h | h
    · exact absurd h hD
    · linarith
  have hy : r.y = q.y := by
    have h3 : ((b.y - a.y) * (d.x - c.x) - (b.x - a.x) * (d.y - c.y)) * (r.y - q.y) = 0 := by
      linear_combination (d.y - c.y) * e1 - (b.y - a.y) * e2
    rcases mul_eq_zero.mp h3 with h | h
    · exact absurd h hD
    · linarith
  have hrq : r = q := QPt.ext_xy hx hy
  exact ⟨r, hrq ▸ hqab, hrcd⟩

/-- Whenever the source intersection test reports true, the two segments
really share a point. -/
theorem qIntersect_shared {a b c d : QPt} (h : qIntersect a b c d = true) :
    ∃ r : QPt, onSeg a b r ∧ onSeg c d r := by
  simp only [qIntersect] at h
  split_ifs at h with hcross hc hd ha hb
  · exact segment_crossing_point hcross.1 hcross.2
  · exact ⟨c, collinear_onSegment (qOrient_eq_zero_iff.mp hc.1) hc.2, onSeg_left c d⟩
  · exact ⟨d, collinear_onSegment (qOrient_eq_zero_iff.mp hd.1) hd.2, onSeg_right c d⟩
  · exact ⟨a, onSeg_left a b, collinear_onSegment (qOrient_eq_zero_iff.mp ha.1) ha.2⟩
  · exact ⟨b, onSeg_right a b, collinear_onSegment (qOrient_eq_zero_iff.mp hb.1) hb.2⟩

/-- Segments with disjoint bounding boxes share no point. -/
theorem qBoxesDisjoint_no_shared {a b c d : QPt} (h : qBoxesDisjoint a b c d = true) :
    ¬ ∃ r : QPt, onSeg a b r ∧ onSeg c d r := by
  rintro ⟨r, hab, hcd⟩
  obtain ⟨hab1, hab2, hab3, hab4⟩ := onSeg_bounds hab
  obtain ⟨hcd1, hcd2, hcd3, hcd4⟩ := onSeg_bounds hcd
  simp only [qBoxesDisjoint, Bool.or_eq_true, decide_eq_true_eq] at h
  rcases h with ((h | h) | h) | h <;> linarith

/-- Evaluating a child that yields a valid linear ring records the ring and
continues the loop. -/
theorem polygonEvalLines_cons_ok {row : Row} {e : GoExpr} {l : Linestring}
    (heval : e.eval row = .ok (.vlinestring l)) (hring : isLinearRing l = some true)
    (rest : List GoExpr) :
    polygonEvalLines (e :: rest) row = (polygonEvalLines rest row).map (fun t => l :: t) := by
  rw [polygonEvalLines]
  simp only [heval, hring]
  cases polygonEvalLines rest row <;> rfl

/-- Evaluating a prefix whose children all yield valid linear rings collects
those rings in order and continues with the remaining children. -/
theorem polygonEvalLines_append {row : Row} {pre : List GoExpr} {ls : List Linestring}
    (h : List.Forall₂ (ringOk row) pre ls) (rest : List GoExpr) :
    polygonEvalLines (pre ++ rest) row = (polygonEvalLines rest row).map (fun t => ls ++ t) := by
  induction h with
  | nil =>
    show polygonEvalLines rest row = _
    cases polygonEvalLines rest row <;> rfl
  | cons he _ ih =>
    obtain ⟨heval, hring⟩ := he
    rw [List.cons_append, polygonEvalLines_cons_ok heval hring, ih]
    cases polygonEvalLines rest row <;> rfl

/-- A successful run of the evaluation loop certifies every child: each
evaluated to a Linestring passing the linear-ring check, and the collected
list is exactly those Linestrings in order. -/
theorem polygonEvalLines_ok {row : Row} : ∀ {args : List GoExpr} {ls : List Linestring},
    polygonEvalLines args row = .ok ls → List.Forall₂ (ringOk row) args ls := by
  intro args
  induction args with
  | nil =>
    intro ls h
    rw [polygonEvalLines] at h
    cases h
    exact List.Forall₂.nil
  | cons e rest ih =>
    intro ls h
    rw [polygonEvalLines] at h
    cases heval : e.eval row with
    | error msg => simp only [heval] at h; cases h
    | ok v =>
      cases v with
      | vlinestring l =>
        cases hring : isLinearRing l with
        | none => simp only [heval, hring] at h; cases h
        | some bb =>
          cases bb with
          | false => simp only [heval, hring] at h; cases h
          | true =>
            cases hrest : polygonEvalLines rest row with
            | ok ls2 =>
              simp only [heval, hring, hrest, Outcome.ok.injEq] at h
              exact h ▸ List.Forall₂.cons ⟨heval, hring⟩ (ih hrest)
            | error msg => simp only [heval, hring, hrest] at h; cases h
            | panic => simp only [heval, hring, hrest] at h; cases h
      | vnull => simp only [heval] at h; cases h
      | vpoint p => simp only [heval] at h; cases h
      | vpolygon pg => simp only [heval] at h; cases h
      | vstring s => simp only [heval] at h; cases h
      | vother => simp only [heval] at h; cases h

theorem qOrient_eq_one_iff {p1 p2 p3 : QPt} :
    qOrient p1 p2 p3 = 1 ↔ 0 < qOrientVal p1 p2 p3 := by
  constructor
  · intro h
    rcases lt_trichotomy (qOrientVal p1 p2 p3) 0 with hv | hv | hv
    · rw [qOrient_of_val_neg hv] at h; exact absurd h (by decide)
    · rw [qOrient_of_val_zero hv] at h; exact absurd h (by decide)
    · exact hv
  · exact qOrient_of_val_pos

theorem qOrient_eq_two_iff {p1 p2 p3 : QPt} :
    qOrient p1 p2 p3 = 2 ↔ qOrientVal p1 p2 p3 < 0 := by
  constructor
  · intro h
    rcases lt_trichotomy (qOrientVal p1 p2 p3) 0 with hv | hv | hv
    · exact hv
    · rw [qOrient_of_val_zero hv] at h; exact absurd h (by decide)
    · rw [qOrient_of_val_pos hv] at h; exact absurd h (by decide)
  · exact qOrient_of_val_neg

/-- A collinear point strictly inside the bounding box triggers the
boundary-touch branch (or an earlier one): the test reports true. -/
theorem qIntersect_of_collinear_onSegment {a b c : QPt} (d : QPt)
    (h0 : qOrientVal a b c = 0) (hs : qOnSegment a b c = true) :
    qIntersect a b c d = true := by
  simp only [qIntersect]
  split_ifs with h1 h2 h3 h4 h5 <;>
    first
      | rfl
      | exact absurd ⟨qOrient_of_val_zero h0, hs⟩ h2

/-- On finite coordinates the source comparison chain coincides with the
lexicographic comparison as worded in the spec. -/
theorem pointCompareVals_finPt (p q : QPt) :
    pointCompareVals (finPt p) (finPt q) = specLexCompare p q := by
  simp only [pointCompareVals, specLexCompare, finPt, F.gt, F.lt, decide_eq_true_eq]

theorem specLexCompare_self (p : QPt) : specLexCompare p p = 0 := by
  simp [specLexCompare]

theorem specLexCompare_antisym (p q : QPt) :
    specLexCompare p q = -specLexCompare q p := by
  simp only [specLexCompare]
  split_ifs <;> first | decide | (exfalso; linarith)

theorem specLexCompare_trans {p q r : QPt} (h1 : specLexCompare p q = -1)
    (h2 : specLexCompare q r = -1) : specLexCompare p r = -1 := by
  simp only [specLexCompare] at h1 h2 ⊢
  split_ifs at h1 h2 ⊢ <;> first | rfl | (exfalso; linarith)

/-- A successful Polygon.Eval certifies every child and returns exactly the
collected rings. -/
theorem polygonEval_ok_shape {args : List GoExpr} {row : Row} {v : Value}
    (h : polygonEval args row = .ok v) :
    ∃ ls : List Linestring, List.Forall₂ (ringOk row) args ls ∧ v = .vpolygon ⟨ls⟩ := by
  rw [polygonEval] at h
  cases hlines : polygonEvalLines args row with
  | ok ls =>
    simp only [hlines, Outcome.ok.injEq] at h
    exact ⟨ls, polygonEvalLines_ok hlines, h.symm⟩
  | error msg => simp only [hlines] at h; cases h
  | panic => simp only [hlines] at h; cases h

/-- C1: Polygon.Eval evaluates its children in argument order and
short-circuits: with a prefix of children yielding valid linear rings, a
child whose evaluation errors makes Eval return that error; a child yielding
a non-Linestring value makes Eval fail with the non-linestring error; a
child yielding a Linestring that fails isLinearRing makes Eval fail with the
non-linearring error; when every child yields a valid linear ring, Eval
returns the Polygon whose rings are exactly those Linestrings in argument
order; and every successful result is of that shape, so no partial or
default Polygon is ever returned on a failure. -/
theorem c1_polygon_eval_cases :
    (∀ (row : Row) (pre : List GoExpr) (ls : List Linestring) (e : GoExpr)
       (rest : List GoExpr) (msg : String),
       List.Forall₂ (ringOk row) pre ls → e.eval row = .error msg →
       polygonEval (pre ++ e :: rest) row = .error msg) ∧
    (∀ (row : Row) (pre : List GoExpr) (ls : List Linestring) (e : GoExpr)
       (rest : List GoExpr) (v : Value),
       List.Forall₂ (ringOk row) pre ls → e.eval row = .ok v →
       (∀ l : Linestring, v ≠ .vlinestring l) →
       polygonEval (pre ++ e :: rest) row
         = .error "polygon constructor encountered a non-linestring") ∧
    (∀ (row : Row) (pre : List GoExpr) (ls : List Linestring) (e : GoExpr)
       (rest : List GoExpr) (l : Linestring),
       List.Forall₂ (ringOk row) pre ls → e.eval row = .ok (.vlinestring l) →
       isLinearRing l = some false →
       polygonEval (pre ++ e :: rest) row
         = .error "polygon constructor encountered a non-linearring") ∧
    (∀ (row : Row) (args : List GoExpr) (ls : List Linestring),
       List.Forall₂ (ringOk row) args ls →
       polygonEval args row = .ok (.vpolygon ⟨ls⟩)) ∧
    (∀ (row : Row) (args : List GoExpr) (v : Value),
       polygonEval args row = .ok v →
       ∃ ls : List Linestring, List.Forall₂ (ringOk row) args ls ∧ v = .vpolygon ⟨ls⟩) := by
  refine ⟨?_, ?_, ?_, ?_, ?_⟩
  · intro row pre ls e rest msg hpre heval
    rw [polygonEval, polygonEvalLines_append hpre, polygonEvalLines]
    simp only [heval]
    rfl
  · intro row pre ls e rest v hpre heval hnl
    rw [polygonEval, polygonEvalLines_append hpre, polygonEvalLines]
    simp only [heval]
    cases v with
    | vlinestring l => exact absurd rfl (hnl l)
    | vnull => rfl
    | vpoint p => rfl
    | vpolygon pg => rfl
    | vstring s => rfl
    | vother => rfl
  · intro row pre ls e rest l hpre heval hring
    rw [polygonEval, polygonEvalLines_append hpre, polygonEvalLines]
    simp only [heval, hring]
    rfl
  · intro row args ls hall
    have h2 := polygonEvalLines_append hall []
    rw [List.append_nil] at h2
    rw [polygonEval, h2]
    simp [polygonEvalLines, Outcome.map]
  · intro row args v h
    exact polygonEval_ok_shape h

/-- Witness for C1: a single child evaluating to the closed square ring
yields the one-ring polygon. -/
theorem c1_polygon_eval_cases_witness :
    polygonEval [constExpr (.vlinestring squareRing)] ([] : Row)
      = .ok (.vpolygon ⟨[squareRing]⟩) :=
  c1_polygon_eval_cases.2.2.2.1 ([] : Row) [constExpr (.vlinestring squareRing)]
    [squareRing] (List.Forall₂.cons ⟨rfl, by decide⟩ List.Forall₂.nil)

/-- C2: isLinearRing returns false for every Linestring with 1 to 3 points;
for 4 or more points it returns exactly the Go equality test of the first
and last point, hence true for every closed ring with 4 or more points
regardless of self-intersection; the closed bowtie ring is accepted even
though the intersection test itself reports its first and third segments as
crossing. -/
theorem c2_isLinearRing_closure :
    (∀ (line : Linestring) (h : line.points ≠ []),
      (line.points.length < 4 → isLinearRing line = some false) ∧
      (4 ≤ line.points.length →
        isLinearRing line
          = some (Point.goEq (line.points.head h) (line.points.getLast h)))) ∧
    isLinearRing bowtieRing = some true ∧
    lineSegmentsIntersect (finPt ⟨0, 0⟩) (finPt ⟨2, 2⟩) (finPt ⟨2, 0⟩) (finPt ⟨0, 2⟩)
      = true := by
  refine ⟨?_, by decide, ?_⟩
  swap
  · rw [lineSegmentsIntersect_finPt]
    norm_num [qIntersect, qOrient, qOrientVal, qOnSegment]
  intro line h
  constructor
  · intro hlt
    have hne : line.points.length ≠ 0 := fun h0 => h (List.length_eq_zero.mp h0)
    simp only [isLinearRing, if_pos (And.intro hne hlt)]
  · intro hge
    have hnot : ¬(line.points.length ≠ 0 ∧ line.points.length < 4) := by omega
    simp only [isLinearRing, if_neg hnot, List.head?_eq_head h,
      List.getLast?_eq_getLast line.points h]
    cases hq : Point.goEq (line.points.head h) (line.points.getLast h) <;> simp

/-- Witness for C2: a 3-point open line is rejected and the closed square is
accepted. -/
theorem c2_isLinearRing_closure_witness :
    isLinearRing ⟨[finPt ⟨0, 0⟩, finPt ⟨0, 1⟩, finPt ⟨1, 1⟩]⟩ = some false ∧
    isLinearRing squareRing = some true :=
  ⟨(c2_isLinearRing_closure.1 _ (by decide)).1 (by decide),
   ((c2_isLinearRing_closure.1 squareRing (by decide)).2 (by decide)).trans (by decide)⟩

/-- C7: on the empty Linestring the closure check indexes an empty slice, so
isLinearRing panics instead of returning a boolean, and Polygon.Eval panics
on any child that evaluates to an empty Linestring (after a prefix of valid
rings). -/
theorem c7_empty_ring_panics :
    isLinearRing ⟨[]⟩ = none ∧
    ∀ (row : Row) (pre : List GoExpr) (ls : List Linestring) (e : GoExpr)
      (rest : List GoExpr),
      List.Forall₂ (ringOk row) pre ls →
      e.eval row = .ok (.vlinestring ⟨[]⟩) →
      polygonEval (pre ++ e :: rest) row = .panic := by
  refine ⟨rfl, ?_⟩
  intro row pre ls e rest hpre heval
  rw [polygonEval, polygonEvalLines_append hpre, polygonEvalLines]
  simp only [heval]
  rfl

/-- Witness for C7: a single child yielding the empty Linestring makes Eval
panic. -/
theorem c7_empty_ring_panics_witness :
    polygonEval [constExpr (.vlinestring ⟨[]⟩)] ([] : Row) = .panic :=
  c7_empty_ring_panics.2 ([] : Row) [] [] (constExpr (.vlinestring ⟨[]⟩)) []
    List.Forall₂.nil rfl

/-- C8: NewPolygon rejects zero children with the InvalidArgumentCount
error and accepts one or more children; WithChildren delegates to
NewPolygon, so it re-validates the argument count, never consults the
receiver, and on success produces a fresh instance holding exactly the new
children. -/
theorem c8_arity_with_children :
    NewPolygon [] = .error (.invalidArgumentNumber "Polygon" "1 or more" 0) ∧
    (∀ args : List GoExpr, args ≠ [] → NewPolygon args = .ok ⟨args⟩) ∧
    (∀ (p : PolygonExpr) (cs : List GoExpr), polygonWithChildren p cs = NewPolygon cs) ∧
    (∀ (p q : PolygonExpr) (cs : List GoExpr),
      polygonWithChildren p cs = polygonWithChildren q cs) ∧
    (∀ (p : PolygonExpr) (cs : List GoExpr) (res : PolygonExpr),
      polygonWithChildren p cs = .ok res → res.args = cs) := by
  refine ⟨rfl, ?_, fun _ _ => rfl, fun _ _ _ => rfl, ?_⟩
  · intro args hne
    rw [NewPolygon, if_neg (fun hlt => hne (List.length_eq_zero.mp (by omega)))]
  · intro p cs res h
    rw [polygonWithChildren, NewPolygon] at h
    by_cases hc : cs.length < 1
    · rw [if_pos hc] at h; cases h
    · rw [if_neg hc] at h; cases h; rfl

/-- Witness for C8: one child is accepted and the node holds it. -/
theorem c8_arity_with_children_witness :
    NewPolygon [constExpr .vnull] = .ok ⟨[constExpr .vnull]⟩ :=
  c8_arity_with_children.2.1 [constExpr .vnull] (List.cons_ne_nil _ _)

/-- C10: a child evaluating to nil with no error hits the default branch of
the type switch, so Eval fails with the non-linestring error; and Eval never
returns a NULL result, whether or not the node is nullable. -/
theorem c10_null_child_behaviour :
    (∀ (row : Row) (pre : List GoExpr) (ls : List Linestring) (e : GoExpr)
       (rest : List GoExpr),
      List.Forall₂ (ringOk row) pre ls →
      e.eval row = .ok .vnull →
      polygonEval (pre ++ e :: rest) row
        = .error "polygon constructor encountered a non-linestring") ∧
    (∀ (args : List GoExpr) (row : Row), polygonEval args row ≠ .ok .vnull) ∧
    (∀ (args : List GoExpr) (row : Row), polygonIsNullable args = true →
      polygonEval args row ≠ .ok .vnull) := by
  have hnever : ∀ (args : List GoExpr) (row : Row), polygonEval args row ≠ .ok .vnull := by
    intro args row hok
    obtain ⟨ls, _, hv⟩ := polygonEval_ok_shape hok
    cases hv
  refine ⟨?_, hnever, fun args row _ => hnever args row⟩
  intro row pre ls e rest hpre heval
  rw [polygonEval, polygonEvalLines_append hpre, polygonEvalLines]
  simp only [heval]
  rfl

/-- Witness for C10: a nullable child returning nil yields the
non-linestring error. -/
theorem c10_null_child_behaviour_witness :
    polygonEval [⟨fun _ => .ok .vnull, true⟩] ([] : Row)
      = .error "polygon constructor encountered a non-linestring" :=
  c10_null_child_behaviour.1 ([] : Row) [] [] ⟨fun _ => .ok .vnull, true⟩ []
    List.Forall₂.nil rfl

/-- C6: on Points with finite coordinates, PointType.Compare succeeds and
its value is reflexive, antisymmetric, transitive, and equal to the
lexicographic (X then Y) comparison exactly as the spec words it. -/
theorem c6_compare_total_order :
    ∀ p q r : QPt,
      pointTypeCompare (.vpoint (finPt p)) (.vpoint (finPt q))
        = .ok (pointCompareVals (finPt p) (finPt q)) ∧
      pointCompareVals (finPt p) (finPt p) = 0 ∧
      pointCompareVals (finPt p) (finPt q) = -pointCompareVals (finPt q) (finPt p) ∧
      (pointCompareVals (finPt p) (finPt q) = -1 →
        pointCompareVals (finPt q) (finPt r) = -1 →
        pointCompareVals (finPt p) (finPt r) = -1) ∧
      pointCompareVals (finPt p) (finPt q) = specLexCompare p q := by
  intro p q r
  refine ⟨rfl, ?_, ?_, ?_, pointCompareVals_finPt p q⟩
  · rw [pointCompareVals_finPt, specLexCompare_self]
  · rw [pointCompareVals_finPt p q, pointCompareVals_finPt q p, specLexCompare_antisym]
  · rw [pointCompareVals_finPt p q, pointCompareVals_finPt q r, pointCompareVals_finPt p r]
    exact specLexCompare_trans

/-- Witness for C6 at concrete points, discharging the transitivity
hypotheses. -/
theorem c6_compare_total_order_witness :
    pointCompareVals (finPt ⟨0, 0⟩) (finPt ⟨1, 0⟩) = -1 :=
  (c6_compare_total_order ⟨0, 0⟩ ⟨0, 1⟩ ⟨1, 0⟩).2.2.2.1 (by decide) (by decide)

/-- C9: with a NaN coordinate every strict comparison is false, so Compare
of the all-NaN Point against any Point falls through to the equal result
with a nil error; the induced equality is not transitive, so Compare is not
a total order once NaN coordinates are admitted: (0,0) and (1,1) both
compare equal to the NaN Point but not to each other. -/
theorem c9_nan_compare_degenerate :
    (∀ q : Point, pointTypeCompare (.vpoint ⟨F.nan, F.nan⟩) (.vpoint q) = .ok 0) ∧
    pointTypeCompare (.vpoint (finPt ⟨0, 0⟩)) (.vpoint ⟨F.nan, F.nan⟩) = .ok 0 ∧
    pointTypeCompare (.vpoint ⟨F.nan, F.nan⟩) (.vpoint (finPt ⟨1, 1⟩)) = .ok 0 ∧
    pointTypeCompare (.vpoint (finPt ⟨0, 0⟩)) (.vpoint (finPt ⟨1, 1⟩)) = .ok (-1) := by
  refine ⟨?_, rfl, rfl, rfl⟩
  intro q
  obtain ⟨qx, qy⟩ := q
  cases qx <;> cases qy <;> rfl

/-- C3: PointType.SQL returns the wire NULL marker for nil and swallows the
conversion failure of any non-Point value into an empty wire value with a
nil error, as the claim says; but on every Point value it panics at the
string type assertion pv.(string) instead of returning the Geometry wire
encoding, since Convert always hands it a Point and never a string. -/
theorem c3_sql_point_panics :
    pointTypeSQL .vnull = .ok (.null, none) ∧
    (∀ p : Point, pointTypeSQL (.vpoint p) = .panic) ∧
    pointTypeSQL (.vpoint ⟨F.fin 1, F.fin 2⟩) = .panic ∧
    pointTypeSQL (.vstring "abc") = .ok (.emptyValue, none) ∧
    pointTypeSQL .vother = .ok (.emptyValue, none) := by
  exact ⟨rfl, fun p => rfl, rfl, rfl, rfl⟩

/-- C4 counterexample: for p1 = (0,0), p2 = (1,0), p3 = (1,1) the cross
product of (p2 - p1) and (p3 - p2) is 1, which is positive, yet
pointOrientation returns 2 (counter-clockwise), not the claimed 1
(clockwise). -/
theorem c4_orientation_counterexample :
    crossProd (vsub ⟨1, 0⟩ ⟨0, 0⟩) (vsub ⟨1, 1⟩ ⟨1, 0⟩) = 1 ∧
    (0 : ℚ) < 1 ∧
    pointOrientation (finPt ⟨0, 0⟩) (finPt ⟨1, 0⟩) (finPt ⟨1, 1⟩) = 2 ∧
    (2 : Int) ≠ 1 := by
  refine ⟨by norm_num [crossProd, vsub], by norm_num, ?_, by decide⟩
  rw [pointOrientation_finPt]
  norm_num [qOrient, qOrientVal]

/-- C4 (amended): on finite coordinates the orientation value is the
negation of the cross product of (p2 - p1) and (p3 - p2), so zero cross
product yields Collinear (0), a negative cross product yields Clockwise (1)
and a positive cross product yields CounterClockwise (2); the diagonal
triple is collinear and the two mirrored triangles are classified with
opposite non-collinear results. -/
theorem c4_orientation_amended :
    (∀ p1 p2 p3 : QPt,
      qOrientVal p1 p2 p3 = -crossProd (vsub p2 p1) (vsub p3 p2) ∧
      (pointOrientation (finPt p1) (finPt p2) (finPt p3) = 0 ↔
        crossProd (vsub p2 p1) (vsub p3 p2) = 0) ∧
      (pointOrientation (finPt p1) (finPt p2) (finPt p3) = 1 ↔
        crossProd (vsub p2 p1) (vsub p3 p2) < 0) ∧
      (pointOrientation (finPt p1) (finPt p2) (finPt p3) = 2 ↔
        0 < crossProd (vsub p2 p1) (vsub p3 p2))) ∧
    pointOrientation (finPt ⟨0, 0⟩) (finPt ⟨1, 1⟩) (finPt ⟨2, 2⟩) = 0 ∧
    pointOrientation (finPt ⟨0, 0⟩) (finPt ⟨1, 0⟩) (finPt ⟨1, 1⟩) = 2 ∧
    pointOrientation (finPt ⟨0, 0⟩) (finPt ⟨0, 1⟩) (finPt ⟨1, 1⟩) = 1 := by
  refine ⟨?_, ?_, ?_, ?_⟩
  · intro p1 p2 p3
    have hval : qOrientVal p1 p2 p3 = -crossProd (vsub p2 p1) (vsub p3 p2) := by
      simp only [qOrientVal, crossProd, vsub]
      ring
    rw [pointOrientation_finPt]
    refine ⟨hval, ?_, ?_, ?_⟩
    · rw [qOrient_eq_zero_iff, hval, neg_eq_zero]
    · rw [qOrient_eq_one_iff, hval, neg_pos]
    · rw [qOrient_eq_two_iff, hval, neg_lt_zero]
  · rw [pointOrientation_finPt]
    norm_num [qOrient, qOrientVal]
  · rw [pointOrientation_finPt]
    norm_num [qOrient, qOrientVal]
  · rw [pointOrientation_finPt]
    norm_num [qOrient, qOrientVal]

/-- Witness for C4 (amended): a negative cross product forces the clockwise
classification. -/
theorem c4_orientation_amended_witness :
    pointOrientation (finPt ⟨0, 0⟩) (finPt ⟨3, 1⟩) (finPt ⟨4, 0⟩) = 1 :=
  ((c4_orientation_amended.1 ⟨0, 0⟩ ⟨3, 1⟩ ⟨4, 0⟩).2.2.1).mpr (by norm_num [crossProd, vsub])

/-- C5 counterexample: the axis-aligned segments (0,0)-(2,0) and (1,0)-(3,0)
are collinear (both orientation values vanish) and overlap in more than one
point (both (3/2,0) and (2,0) lie on both segments), yet the source test
reports no intersection: the strict bounding-box check of onSegment can
never succeed on the degenerate y axis, so the boundary-touch branch never
fires. -/
theorem c5_intersect_counterexample :
    onSeg ⟨0, 0⟩ ⟨2, 0⟩ ⟨3/2, 0⟩ ∧ onSeg ⟨1, 0⟩ ⟨3, 0⟩ ⟨3/2, 0⟩ ∧
    onSeg ⟨0, 0⟩ ⟨2, 0⟩ ⟨2, 0⟩ ∧ onSeg ⟨1, 0⟩ ⟨3, 0⟩ ⟨2, 0⟩ ∧
    (⟨3/2, 0⟩ : QPt) ≠ ⟨2, 0⟩ ∧
    qOrientVal ⟨0, 0⟩ ⟨2, 0⟩ ⟨1, 0⟩ = 0 ∧ qOrientVal ⟨0, 0⟩ ⟨2, 0⟩ ⟨3, 0⟩ = 0 ∧
    lineSegmentsIntersect (finPt ⟨0, 0⟩) (finPt ⟨2, 0⟩) (finPt ⟨1, 0⟩) (finPt ⟨3, 0⟩)
      = false := by
  refine ⟨⟨3/4, by norm_num, by norm_num, by norm_num, by norm_num⟩,
          ⟨1/4, by norm_num, by norm_num, by norm_num, by norm_num⟩,
          ⟨1, by norm_num, by norm_num, by norm_num, by norm_num⟩,
          ⟨1/2, by norm_num, by norm_num, by norm_num, by norm_num⟩,
          ?_, by norm_num [qOrientVal], by norm_num [qOrientVal], ?_⟩
  · intro h
    have hx := congrArg QPt.x h
    norm_num at hx
  · rw [lineSegmentsIntersect_finPt]
    norm_num [qIntersect, qOrient, qOrientVal, qOnSegment]

/-- C5 (amended): the test returns false for every pair of segments with
disjoint bounding boxes sharing no point; the crossing diagonals of the unit
square report intersection; a collinear endpoint strictly inside the other
bounding box on both axes triggers the boundary-touch branch, as for the two
overlapping diagonal segments; but axis-aligned collinear overlapping
segments return false, since the strict bounding-box test cannot succeed on
the degenerate axis. -/
theorem c5_intersect_amended :
    (∀ a b c d : QPt,
      qBoxesDisjoint a b c d = true →
      (¬ ∃ r : QPt, onSeg a b r ∧ onSeg c d r) →
      lineSegmentsIntersect (finPt a) (finPt b) (finPt c) (finPt d) = false) ∧
    lineSegmentsIntersect (finPt ⟨0, 0⟩) (finPt ⟨1, 1⟩) (finPt ⟨0, 1⟩) (finPt ⟨1, 0⟩)
      = true ∧
    (∀ a b c d : QPt, qOrientVal a b c = 0 → qOnSegment a b c = true →
      lineSegmentsIntersect (finPt a) (finPt b) (finPt c) (finPt d) = true) ∧
    lineSegmentsIntersect (finPt ⟨0, 0⟩) (finPt ⟨2, 2⟩) (finPt ⟨1, 1⟩) (finPt ⟨3, 3⟩)
      = true ∧
    lineSegmentsIntersect (finPt ⟨0, 0⟩) (finPt ⟨2, 0⟩) (finPt ⟨1, 0⟩) (finPt ⟨3, 0⟩)
      = false := by
  refine ⟨?_, ?_, ?_, ?_, ?_⟩
  · intro a b c d _ hns
    rw [lineSegmentsIntersect_finPt]
    cases hq : qIntersect a b c d with
    | false => rfl
    | true => exact absurd (qIntersect_shared hq) hns
  · rw [lineSegmentsIntersect_finPt]
    norm_num [qIntersect, qOrient, qOrientVal, qOnSegment]
  · intro a b c d h0 hs
    rw [lineSegmentsIntersect_finPt]
    exact qIntersect_of_collinear_onSegment d h0 hs
  · rw [lineSegmentsIntersect_finPt]
    norm_num [qIntersect, qOrient, qOrientVal, qOnSegment]
  · rw [lineSegmentsIntersect_finPt]
    norm_num [qIntersect, qOrient, qOrientVal, qOnSegment]

/-- Witness for C5 (amended): two horizontally separated segments report no
intersection; both hypotheses are discharged concretely. -/
theorem c5_intersect_amended_witness :
    lineSegmentsIntersect (finPt ⟨0, 0⟩) (finPt ⟨1, 0⟩) (finPt ⟨3, 0⟩) (finPt ⟨4, 0⟩)
      = false :=
  c5_intersect_amended.1 ⟨0, 0⟩ ⟨1, 0⟩ ⟨3, 0⟩ ⟨4, 0⟩ (by norm_num [qBoxesDisjoint])
    (by
      rintro ⟨r, h1, h2⟩
      obtain ⟨_, hb2, _, _⟩ := onSeg_bounds h1
      obtain ⟨hc1, _, _, _⟩ := onSeg_bounds h2
      norm_num at hb2 hc1
      linarith)
